import Mathlib

/-!
Verification development for the grass Sass-compiler core: the identifier
scanner and escape decoder of `src/utils/peek_until.rs` and the meta
builtins of `src/builtin/meta.rs`, embedded shallowly in Lean.
Surrounding infrastructure that the repository snapshot does not include
(the lexer, character-class helpers, the value model, scope and the
builtin registry) is modelled from the specification, as noted on each
such definition.
-/

namespace Grass

/-- Source range with a low and a high offset, as in `codemap::Span`;
token `i` of the input covers the range from `i` to `i + 1`. -/
structure Span where
  low : Nat
  high : Nat
deriving DecidableEq

/-- Smallest span containing both arguments (`codemap::Span::merge`). -/
def Span.merge (a b : Span) : Span :=
  ⟨min a.low b.low, max a.high b.high⟩

/-- One source character together with its position (`Token` of the source). -/
structure Token where
  kind : Char
  pos : Span
deriving DecidableEq

/-- Modelled from the spec: the Cursor/Lexer of section 4.1 — a buffer of
position-tagged tokens with a lookahead position. `peek` returns the token
under the lookahead position; `peek_forward`/`peek_backward` move only the
lookahead position and return the token now under it; `advance_cursor`
moves the scan past one token (section 4.2 step 3). The committed read
position is omitted: none of the embedded scanner functions read it. -/
structure Lexer where
  buf : List Token
  cursor : Nat
deriving DecidableEq

/-- Token under the lookahead position, or none at end of input. -/
def Lexer.peek (l : Lexer) : Option Token :=
  l.buf.get? l.cursor

/-- Move the lookahead position forward by `n` (the token-returning part of
`peek_forward` is recovered by composing with `Lexer.peek`). -/
def Lexer.advanceLook (l : Lexer) (n : Nat) : Lexer :=
  ⟨l.buf, l.cursor + n⟩

/-- Kinds of the tokens from the lookahead position onward. -/
def Lexer.peekKinds (l : Lexer) : List Char :=
  (l.buf.drop l.cursor).map Token.kind

/-- Result of a scanner computation: success, a `SassResult` error carrying
a message and a span, or a Rust panic (an `unwrap` of `None`). -/
inductive Res (α : Type) where
  | ok : α → Res α
  | err : String → Span → Res α
  | panicked : Res α
deriving DecidableEq

/-- Modelled from the spec: `is_name_start` of section 6 — ASCII letters,
`_`, and any codepoint at or above 0x80 (`utils/mod.rs` is not in the
snapshot). -/
def is_name_start (c : Char) : Bool :=
  (('a' ≤ c && c ≤ 'z') || ('A' ≤ c && c ≤ 'Z')) || c = '_' || 0x80 ≤ c.toNat

/-- Modelled from the spec: `is_name` of section 6 — name-start characters,
ASCII digits and `-`. -/
def is_name (c : Char) : Bool :=
  is_name_start c || ('0' ≤ c && c ≤ '9') || c = '-'

/-- ASCII hex digit test (`char::is_ascii_hexdigit` of Rust). -/
def is_ascii_hexdigit (c : Char) : Bool :=
  ('0' ≤ c && c ≤ '9') || ('a' ≤ c && c ≤ 'f') || ('A' ≤ c && c ≤ 'F')

/-- Unicode white-space test (`char::is_whitespace` of Rust): the
characters with the White_Space property. -/
def is_rust_whitespace (c : Char) : Bool :=
  (9 ≤ c.toNat && c.toNat ≤ 13) || c.toNat = 32 || c.toNat = 0x85 ||
    c.toNat = 0xA0 || c.toNat = 0x1680 ||
    (0x2000 ≤ c.toNat && c.toNat ≤ 0x200A) || c.toNat = 0x2028 ||
    c.toNat = 0x2029 || c.toNat = 0x202F || c.toNat = 0x205F ||
    c.toNat = 0x3000

/-- Modelled from the spec: `as_hex` of section 6 — one ASCII hex digit to
its value from 0 to 15. -/
def as_hex (c : Char) : Nat :=
  if '0' ≤ c && c ≤ '9' then c.toNat - '0'.toNat
  else if 'a' ≤ c && c ≤ 'f' then c.toNat - 'a'.toNat + 10
  else c.toNat - 'A'.toNat + 10

/-- Modelled from the spec: `hex_char_for` of section 6 — the lowercase
hex digit for a value from 0 to 15. -/
def hex_char_for (n : Nat) : Char :=
  if n < 10 then Char.ofNat (48 + n) else Char.ofNat (87 + n)

/-- Hex-digit accumulation loop of `peek_escape` (`for _ in 0..6`): while
fuel remains and the peeked token is an ASCII hex digit, fold it into the
value big-endian, merge its position into the span and move the lookahead
past it. -/
def hexLoop : Nat → Nat → Span → Lexer → Nat × Span × Lexer
  | 0, v, sp, l => (v, sp, l)
  | n + 1, v, sp, l =>
    match l.peek with
    | none => (v, sp, l)
    | some t =>
      if is_ascii_hexdigit t.kind then
        hexLoop n (v * 16 + as_hex t.kind) (sp.merge t.pos) (l.advanceLook 1)
      else (v, sp, l)

/-- Canonical hex escape of a codepoint value (source lines 51 to 57): a
backslash, the lowercase hex digits with the leading zero nibble omitted
when the value fits one hex digit, and one trailing space. -/
def hexEscapeForm (v : Nat) : String :=
  String.singleton '\\' ++
    (if 0xF < v then String.singleton (hex_char_for (v / 16)) else ("")) ++
    String.singleton (hex_char_for (v % 16)) ++ " "

/-- Tail of `peek_escape` (source lines 47 to 61): convert the accumulated
value to a scalar (`Invalid escape sequence.` when it is not one), then
re-encode: a name character literally; a C0 control or DEL as a lowercase
hex escape with a trailing space, the leading zero nibble omitted when the
value fits one hex digit; anything else as a backslash plus the character. -/
def finishEscape (v : Nat) (sp : Span) (l : Lexer) : Res (String × Lexer) :=
  if Nat.isValidChar v then
    if is_name (Char.ofNat v) then .ok (String.singleton (Char.ofNat v), l)
    else if v ≤ 0x1F ∨ v = 0x7F then .ok (hexEscapeForm v, l)
    else .ok (String.singleton '\\' ++ String.singleton (Char.ofNat v), l)
  else .err ("Invalid escape sequence.") sp

/-- Embedding of `peek_escape` (source lines 16 to 62), entered with the
lookahead immediately after a consumed backslash. -/
def peek_escape (l : Lexer) : Res (String × Lexer) :=
  match l.peek with
  | none => .ok ("", l)
  | some first =>
    if first.kind = '\n' then .err ("Expected escape sequence.") first.pos
    else if is_ascii_hexdigit first.kind then
      match hexLoop 6 0 first.pos l with
      | (v, sp, l1) =>
        let l2 :=
          match l1.peek with
          | some t => if is_rust_whitespace t.kind then l1.advanceLook 1 else l1
          | none => l1
        finishEscape v sp l2
    else
      finishEscape first.kind.toNat first.pos (l.advanceLook 1)

/-- Scanned text together with the span it came from (`codemap::Spanned`). -/
structure Spanned (α : Type) where
  node : α
  span : Span
deriving DecidableEq

/-- Loop of `peek_ident_body_no_interpolation` (source lines 115 to 141)
with an explicit fuel that the wrapper instantiates to more than the number
of tokens left, so that the recursion is structural. Each iteration first
merges the peeked token's position into the span, then: in unit mode a `-`
whose successor is absent ends the loop with the lookahead already past the
`-`; a `-` whose successor is `.` or an ASCII digit ends the loop with the
`-` unconsumed; any other `-` moves the lookahead two tokens, appending `-`
and the kind of the token two past the `-` (a panic when that token is
absent); a name character is consumed and appended; a backslash is consumed
and delegates to `peek_escape`; anything else ends the loop. -/
def bodyLoop : Nat → Bool → Lexer → Span → String → Res (Spanned String × Lexer)
  | 0, _, _, _, _ => .panicked
  | fuel + 1, unit, l, sp, text =>
    match l.peek with
    | none => .ok (⟨text, sp⟩, l)
    | some tok =>
      let sp := sp.merge tok.pos
      if unit && tok.kind = '-' then
        match (l.advanceLook 1).peek with
        | none => .ok (⟨text, sp⟩, l.advanceLook 1)
        | some second =>
          if second.kind = '.' || ('0' ≤ second.kind && second.kind ≤ '9') then
            .ok (⟨text, sp⟩, l)
          else
            match (l.advanceLook 2).peek with
            | none => .panicked
            | some third =>
              bodyLoop fuel unit (l.advanceLook 2) sp
                ((text.push '-').push third.kind)
      else if is_name tok.kind then
        bodyLoop fuel unit (l.advanceLook 1) sp (text.push tok.kind)
      else if tok.kind = '\\' then
        match peek_escape (l.advanceLook 1) with
        | .ok (s, l1) => bodyLoop fuel unit l1 sp (text ++ s)
        | .err m s1 => .err m s1
        | .panicked => .panicked
      else .ok (⟨text, sp⟩, l)

/-- Embedding of `peek_ident_body_no_interpolation` (source lines 109 to
143): run the body loop with fresh fuel covering every token left. -/
def peek_ident_body_no_interpolation (unit : Bool) (l : Lexer) (sp : Span) :
    Res (Spanned String × Lexer) :=
  bodyLoop (l.buf.length + 1 - l.cursor) unit l sp ("")

/-- Steps 3 and 4 of the identifier scanner (source lines 88 to 106), with
`text` holding what the leading-dash phase already appended: the current
character must be a name-start character (consumed literally) or a
backslash (consumed, delegating to `peek_escape`); anything else is
`Expected identifier.` at its position; then the body is scanned, its span
merged and its text appended. -/
def identTail (l : Lexer) (unit : Bool) (text : String) (sp : Span) :
    Res (Spanned String × Lexer) :=
  match l.peek with
  | none => .err ("Expected identifier.") sp
  | some first =>
    if is_name_start first.kind then
      match peek_ident_body_no_interpolation unit (l.advanceLook 1) sp with
      | .ok (body, l1) => .ok (⟨(text.push first.kind) ++ body.node, sp.merge body.span⟩, l1)
      | .err m s1 => .err m s1
      | .panicked => .panicked
    else if first.kind = '\\' then
      match peek_escape (l.advanceLook 1) with
      | .ok (esc, l1) =>
        match peek_ident_body_no_interpolation unit l1 sp with
        | .ok (body, l2) => .ok (⟨(text ++ esc) ++ body.node, sp.merge body.span⟩, l2)
        | .err m s1 => .err m s1
        | .panicked => .panicked
      | .err m s1 => .err m s1
      | .panicked => .panicked
    else .err ("Expected identifier.") first.pos

/-- Embedding of `peek_ident_no_interpolation` (source lines 64 to 107):
an empty stream is `Expected identifier.` at `spanBefore`; a leading `-` is
consumed (alone at end of input it is the whole identifier); a second `-`
goes to the body directly and returns with the span still being the first
token's position; otherwise scanning continues with `identTail`. -/
def peek_ident_no_interpolation (l : Lexer) (unit : Bool) (spanBefore : Span) :
    Res (Spanned String × Lexer) :=
  match l.peek with
  | none => .err ("Expected identifier.") spanBefore
  | some first0 =>
    let sp := first0.pos
    if first0.kind = '-' then
      match (l.advanceLook 1).peek with
      | none => .ok (⟨"-", sp⟩, l.advanceLook 1)
      | some t2 =>
        if t2.kind = '-' then
          match peek_ident_body_no_interpolation unit (l.advanceLook 2) sp with
          | .ok (body, l1) => .ok (⟨("--" : String) ++ body.node, sp⟩, l1)
          | .err m s1 => .err m s1
          | .panicked => .panicked
        else identTail (l.advanceLook 1) unit ("-") sp
    else identTail l unit ("") sp

/-- Lexer over the characters of a string, token `i` at span `i` to `i + 1`,
lookahead at the start. -/
def mkLexer (s : String) : Lexer :=
  ⟨s.data.enum.map (fun p => ⟨p.2, ⟨p.1, p.1 + 1⟩⟩), 0⟩

/-- Modelled from the spec: `QuoteKind` of section 3 — the original quoting
of a string value, recorded for faithful re-emission (`common.rs` is not in
the snapshot). `None` prints unquoted. -/
inductive QuoteKind where
  | None : QuoteKind
  | Double : QuoteKind
  | Single : QuoteKind
deriving DecidableEq

/-- Modelled from the spec: `Unit` of section 3 — an enumerated unit tag
where `Unit.None` denotes unitless (`unit.rs` is not in the snapshot). -/
inductive Unit where
  | None : Unit
  | Px : Unit
  | Em : Unit
  | Rem : Unit
  | Percent : Unit
  | Deg : Unit
  | S : Unit
deriving DecidableEq

/-- Rendering of a unit tag; `Unit.None` renders as the empty string. -/
def Unit.toString : Unit → String
  | .None => ""
  | .Px => "px"
  | .Em => "em"
  | .Rem => "rem"
  | .Percent => "%"
  | .Deg => "deg"
  | .S => "s"

/-- Modelled from the spec: a user-defined function declaration captured
from a scope at definition time (`FuncDecl`; `atrule/function.rs` is not in
the snapshot). Its contents are opaque to the meta builtins. -/
structure FuncDecl where
  decl : String
deriving DecidableEq

/-- Modelled from the spec: a builtin implementation entry of the global
registry (`Builtin` of `builtin/mod.rs`, not in the snapshot), identified
by a stable registry key. -/
structure Builtin where
  key : Nat
deriving DecidableEq

/-- Modelled from the spec: `SassFunction` of section 3 — a first-class
function value tagged `UserDefined` or `Builtin`, each carrying the name it
was resolved under. -/
inductive SassFunction where
  | UserDefined : FuncDecl → String → SassFunction
  | Builtin : Builtin → String → SassFunction
deriving DecidableEq

/-- Modelled from the spec: `Value` of section 3 — the closed dynamically
tagged value union of this core (`value/mod.rs` is not in the snapshot):
dimensions, strings with their quoting, the booleans, null and first-class
functions. Numbers are modelled as integers; their magnitude is irrelevant
to the meta builtins. -/
inductive Value where
  | Dimension : Int → Unit → Value
  | Ident : String → QuoteKind → Value
  | True : Value
  | False : Value
  | Null : Value
  | Function : SassFunction → Value
deriving DecidableEq

/-- Modelled from the spec: the printed form of a value as interpolated
into builtin error messages (the spec's conventions print the `inspect`
form there; `value/mod.rs` is not in the snapshot). -/
def Value.inspect : Value → String
  | .Dimension n u => toString n ++ u.toString
  | .Ident s .None => s
  | .Ident s .Double => (String.singleton (Char.ofNat 34)) ++ s ++ String.singleton (Char.ofNat 34)
  | .Ident s .Single => (String.singleton (Char.ofNat 39)) ++ s ++ String.singleton (Char.ofNat 39)
  | .True => "true"
  | .False => "false"
  | .Null => "null"
  | .Function f =>
    match f with
    | .UserDefined _ name => ("get-function(" : String) ++ name ++ ")"
    | .Builtin _ name => ("get-function(" : String) ++ name ++ ")"

/-- Modelled from the spec: `Value::is_true` — truthiness, with only
`False` and `Null` falsy; `Result`-typed as in the source, never failing. -/
def Value.is_true : Value → Except String Bool
  | .False => .ok false
  | .Null => .ok false
  | _ => .ok true

/-- Modelled from the spec: `Value::kind` — the type-tag name of a value,
`Result`-typed as in the source, defined for every variant. -/
def Value.kind : Value → Except String String
  | .Dimension _ _ => .ok ("number")
  | .Ident _ _ => .ok ("string")
  | .True => .ok ("bool")
  | .False => .ok ("bool")
  | .Null => .ok ("null")
  | .Function _ => .ok ("function")

/-- Modelled from the spec: `Value::bool`, the boolean injected into the
value union. -/
def Value.bool (b : Bool) : Value :=
  if b then .True else .False

/-- Whether a value is a dimension. -/
def Value.isDimension : Value → Bool
  | .Dimension _ _ => true
  | _ => false

/-- Modelled from the spec: one frame of the scope chain (section 3),
holding name-to-declaration bindings for functions (the variable and mixin
maps play no part in the claims about these builtins). -/
structure Frame where
  fns : List (String × FuncDecl)
deriving DecidableEq

/-- Function declaration bound to a name in one frame, innermost match of
the association list. -/
def Frame.getFn (fr : Frame) (s : String) : Option FuncDecl :=
  (fr.fns.find? (fun p => p.1 = s)).map (fun p => p.2)

/-- Modelled from the spec: the scope chain of section 3 — frames ordered
innermost first; the last frame is the global tier. -/
structure Scope where
  frames : List Frame
deriving DecidableEq

/-- Modelled from the spec: `Scope::get_fn` — the declaration bound to a
name, searching the chain innermost first, `Result`-typed. -/
def Scope.get_fn (sc : Scope) (s : String) : Except String FuncDecl :=
  match sc.frames.findSome? (fun fr => fr.getFn s) with
  | some f => .ok f
  | none => .error ("Undefined function.")

/-- Modelled from the spec: `Scope::fn_exists` — whether any frame of the
chain binds the name to a function. -/
def Scope.fn_exists (sc : Scope) (s : String) : Bool :=
  sc.frames.any (fun fr => (fr.getFn s).isSome)

/-- Modelled from the spec: the global builtin registry (section 3), a
read-only map from builtin name to implementation, here an association
list quantified over by the theorems. -/
def Registry : Type := List (String × Builtin)

/-- Lookup in the registry (`GLOBAL_FUNCTIONS.get`). -/
def Registry.get (g : Registry) (s : String) : Option Builtin :=
  (List.find? (fun p => p.1 = s) g).map (fun p => p.2)

/-- Membership in the registry (`GLOBAL_FUNCTIONS.contains_key`). -/
def Registry.contains_key (g : Registry) (s : String) : Bool :=
  (g.get s).isSome

/-- Embedding of the `unit` builtin (`meta.rs` lines 48 to 58), applied to
the bound value of its `$number` parameter: the unit of a dimension,
rendered and wrapped as a double-quoted string value; a type error naming
`$number` and the printed value otherwise. -/
def unitBuiltin (v : Value) : Except String Value :=
  match v with
  | .Dimension _ u => .ok (.Ident u.toString .Double)
  | v => .error (("$number: " : String) ++ v.inspect ++ " is not a number.")

/-- Embedding of the `type-of` builtin (`meta.rs` lines 59 to 66), applied
to the bound value of its `$value` parameter. -/
def typeOfBuiltin (v : Value) : Except String Value :=
  match v.kind with
  | .ok s => .ok (.Ident s .None)
  | .error e => .error e

/-- Embedding of the `unitless` builtin (`meta.rs` lines 67 to 77), applied
to the bound value of its `$number` parameter. -/
def unitlessBuiltin (v : Value) : Except String Value :=
  match v with
  | .Dimension _ .None => .ok .True
  | .Dimension _ _ => .ok .False
  | _ => .ok .True

/-- Embedding of the `function-exists` builtin (`meta.rs` lines 118 to
129), applied to the bound value of its `$name` parameter, over a scope and
the global registry. -/
def functionExistsBuiltin (sc : Scope) (g : Registry) (nameV : Value) :
    Except String Value :=
  match nameV with
  | .Ident s _ => .ok (Value.bool (sc.fn_exists s || g.contains_key s))
  | v => .error (("$name: " : String) ++ v.inspect ++ " is not a string.")

/-- Name resolution of `get-function` (`meta.rs` lines 149 to 155): a
user-defined function from the scope chain first, then the global builtin
registry, wrapped and tagged accordingly; `Function not found` when
neither resolves. -/
def resolveFn (sc : Scope) (g : Registry) (s : String) : Except String Value :=
  match sc.get_fn s with
  | .ok f => .ok (.Function (.UserDefined f s))
  | .error _ =>
    match g.get s with
    | some b => .ok (.Function (.Builtin b s))
    | none => .error (("Function not found: " : String) ++ s)

/-- Embedding of the `get-function` builtin (`meta.rs` lines 130 to 159),
applied to the bound values of `$name`, `$css` (declared default `False`)
and `$module` (declared default `Null`): the name must be a string; `$css`
is taken by truthiness; `$module` must be a string or null; a truthy
`$css` together with a non-null `$module` is the usage-conflict error;
otherwise the name is resolved by `resolveFn` and `$module` is otherwise
ignored. -/
def getFunctionBuiltin (sc : Scope) (g : Registry) (nameV cssV moduleV : Value) :
    Except String Value :=
  match nameV with
  | .Ident s _ =>
    match cssV.is_true with
    | .error e => .error e
    | .ok css =>
      match moduleV with
      | .Ident _ _ =>
        if css then .error ("$css and $module may not both be passed at once.")
        else resolveFn sc g s
      | .Null => resolveFn sc g s
      | v => .error (("$module: " : String) ++ v.inspect ++ " is not a string.")
  | v => .error (("$name: " : String) ++ v.inspect ++ " is not a string.")

/-- Big-endian value of a run of hex digits, as accumulated by the escape
decoder. -/
def hexVal (ds : List Char) : Nat :=
  ds.foldl (fun a c => a * 16 + as_hex c) 0

/-- Whether a character list does not start with an ASCII hex digit (so a
hex run stops in front of it). -/
def headNotHex : List Char → Bool
  | [] => true
  | c :: _ => !is_ascii_hexdigit c

/-- Number of whitespace terminator tokens the escape decoder consumes
after a hex run, given the kinds that follow the run: one when the next
character is whitespace, none otherwise. -/
def wsSkip : List Char → Nat
  | [] => 0
  | c :: _ => if is_rust_whitespace c then 1 else 0

deriving instance DecidableEq for Except

/-- Head of a dropped list is the element at the drop index. -/
theorem drop_head? {α : Type} : ∀ (L : List α) (n : Nat), (L.drop n).head? = L.get? n
  | [], 0 => rfl
  | [], _ + 1 => rfl
  | _ :: _, 0 => rfl
  | _ :: L, n + 1 => drop_head? L n

/-- Dropping one more element takes the tail. -/
theorem drop_succ {α : Type} : ∀ (L : List α) (n : Nat), L.drop (n + 1) = (L.drop n).tail
  | [], 0 => rfl
  | [], _ + 1 => rfl
  | _ :: _, 0 => rfl
  | _ :: L, n + 1 => drop_succ L n

/-- The peeked token is the head of the tokens from the lookahead onward. -/
theorem peek_eq_head (l : Lexer) : l.peek = (l.buf.drop l.cursor).head? :=
  (drop_head? l.buf l.cursor).symm

/-- Advancing the lookahead by zero changes nothing. -/
theorem advanceLook_zero (l : Lexer) : l.advanceLook 0 = l := rfl

/-- Advancing the lookahead twice adds the amounts. -/
theorem advanceLook_advanceLook (l : Lexer) (m n : Nat) :
    (l.advanceLook m).advanceLook n = l.advanceLook (m + n) := by
  simp [Lexer.advanceLook, Nat.add_assoc]

/-- When no kinds remain, the lookahead sees no token. -/
theorem peekKinds_nil (l : Lexer) (h : l.peekKinds = []) : l.peek = none := by
  rw [peek_eq_head]
  unfold Lexer.peekKinds at h
  cases hd : l.buf.drop l.cursor with
  | nil => rfl
  | cons t ts => rw [hd] at h; simp at h

/-- When the kinds ahead start with `c`, a token of kind `c` is under the
lookahead and one step ahead the remaining kinds follow. -/
theorem peekKinds_cons (l : Lexer) (c : Char) (r : List Char)
    (h : l.peekKinds = c :: r) :
    ∃ t, l.peek = some t ∧ t.kind = c ∧ (l.advanceLook 1).peekKinds = r := by
  unfold Lexer.peekKinds at h
  cases hd : l.buf.drop l.cursor with
  | nil => rw [hd] at h; simp at h
  | cons t ts =>
    rw [hd] at h
    simp only [List.map_cons, List.cons.injEq] at h
    refine ⟨t, ?_, h.1, ?_⟩
    · rw [peek_eq_head, hd]; rfl
    · unfold Lexer.peekKinds Lexer.advanceLook
      simp only
      rw [drop_succ l.buf l.cursor, hd]
      exact h.2

/-- Mapping commutes with taking the tail. -/
theorem map_tail {α β : Type} (f : α → β) (L : List α) :
    (L.map f).tail = L.tail.map f := by
  cases L <;> rfl

/-- Kinds ahead after advancing the lookahead are the dropped kinds. -/
theorem peekKinds_advanceLook (l : Lexer) : ∀ (n : Nat),
    (l.advanceLook n).peekKinds = l.peekKinds.drop n
  | 0 => by rw [advanceLook_zero]; rfl
  | n + 1 => by
    have h2 := peekKinds_advanceLook l n
    unfold Lexer.peekKinds Lexer.advanceLook at *
    simp only at *
    rw [← Nat.add_assoc, drop_succ l.buf (l.cursor + n), ← map_tail, h2, ← drop_succ]

/-- An association-list search succeeds exactly when some entry matches. -/
theorem findSome?_isSome {α β : Type} (f : α → Option β) :
    ∀ (L : List α), (L.findSome? f).isSome = L.any (fun a => (f a).isSome)
  | [] => rfl
  | a :: L => by
    rw [List.findSome?_cons, List.any_cons]
    cases h : f a with
    | some b => simp
    | none => simp [findSome?_isSome f L]

/-- Characterization of the hex accumulation loop of the escape decoder:
when the kinds ahead are a run `ds` of ASCII hex digits no longer than the
fuel, followed by kinds `ks` that do not continue the run (or the fuel is
exactly used up), the loop folds the digits big-endian onto the
accumulator and moves the lookahead past exactly the run. -/
theorem hexLoop_spec : ∀ (ds ks : List Char) (fuel v0 : Nat) (sp0 : Span) (l : Lexer),
    l.peekKinds = ds ++ ks →
    (∀ c ∈ ds, is_ascii_hexdigit c = true) →
    ds.length ≤ fuel →
    (ds.length = fuel ∨ headNotHex ks = true) →
    ∃ sp, hexLoop fuel v0 sp0 l =
      (ds.foldl (fun a c => a * 16 + as_hex c) v0, sp, l.advanceLook ds.length)
  | [], ks, fuel, v0, sp0, l, hk, _, _, hstop => by
    rw [List.nil_append] at hk
    simp only [List.foldl_nil, List.length_nil, advanceLook_zero]
    cases fuel with
    | zero => exact ⟨sp0, rfl⟩
    | succ f =>
      cases hstop with
      | inl h => exact absurd h (by simp)
      | inr h =>
        cases ks with
        | nil =>
          have hp := peekKinds_nil l hk
          exact ⟨sp0, by unfold hexLoop; rw [hp]⟩
        | cons c r =>
          obtain ⟨t, hp, hkind, _⟩ := peekKinds_cons l c r hk
          unfold headNotHex at h
          rw [Bool.not_eq_true'] at h
          refine ⟨sp0, ?_⟩
          unfold hexLoop
          rw [hp]
          simp only [hkind, h, Bool.false_eq_true, if_false]
  | d :: ds', ks, fuel, v0, sp0, l, hk, hhex, hlen, hstop => by
    cases fuel with
    | zero => exact absurd hlen (by simp)
    | succ f =>
      obtain ⟨t, hp, hkind, hrest⟩ :=
        peekKinds_cons l d (ds' ++ ks) (by rw [hk]; rfl)
      have hd : is_ascii_hexdigit d = true := hhex d (by simp)
      have step : hexLoop (f + 1) v0 sp0 l =
          hexLoop f (v0 * 16 + as_hex d) (sp0.merge t.pos) (l.advanceLook 1) := by
        unfold hexLoop
        rw [hp]
        simp only [hkind, hd, if_true]
        cases f <;> rfl
      obtain ⟨sp, ih⟩ := hexLoop_spec ds' ks f (v0 * 16 + as_hex d)
        (sp0.merge t.pos) (l.advanceLook 1) hrest
        (fun c hc => hhex c (by simp [hc]))
        (by simp at hlen; omega)
        (by cases hstop with
          | inl h => left; simp at h; omega
          | inr h => right; exact h)
      refine ⟨sp, ?_⟩
      rw [step, ih, advanceLook_advanceLook]
      simp only [List.foldl_cons, List.length_cons]
      rw [Nat.add_comm 1 ds'.length]

/-- A function name is found by `get_fn` exactly when `fn_exists` holds. -/
theorem get_fn_ok_iff (sc : Scope) (s : String) :
    (∃ f, sc.get_fn s = .ok f) ↔ sc.fn_exists s = true := by
  unfold Scope.get_fn Scope.fn_exists
  rw [← findSome?_isSome]
  cases h : sc.frames.findSome? (fun fr => fr.getFn s) with
  | some f => simp [h]
  | none => simp [h]

/-- Claim C6: for every escape sequence decoded by `peek_escape`, up to 6
hex digits are accumulated big-endian into a codepoint with one following
whitespace consumed as terminator, and the result is re-encoded as: the
character itself when it is a valid name character (so input `41` yields
`A`); a backslash, lowercase hex digits omitting a leading zero nibble
when the value fits one hex digit, and one trailing space when the
codepoint is at most 0x1F or equals 0x7F (so codepoint 0x1F yields a
backslash, `1f` and a space); otherwise a backslash followed by the
character. -/
theorem C6_peek_escape :
    (∀ (l : Lexer) (ds ks : List Char),
      ds ≠ [] → ds.length ≤ 6 → (∀ c ∈ ds, is_ascii_hexdigit c = true) →
      l.peekKinds = ds ++ ks → (ds.length = 6 ∨ headNotHex ks = true) →
      (Nat.isValidChar (hexVal ds) →
        (is_name (Char.ofNat (hexVal ds)) = true →
          peek_escape l = .ok (String.singleton (Char.ofNat (hexVal ds)),
            l.advanceLook (ds.length + wsSkip ks))) ∧
        (is_name (Char.ofNat (hexVal ds)) = false →
          (hexVal ds ≤ 0x1F ∨ hexVal ds = 0x7F) →
          peek_escape l = .ok (hexEscapeForm (hexVal ds),
            l.advanceLook (ds.length + wsSkip ks))) ∧
        (is_name (Char.ofNat (hexVal ds)) = false →
          ¬(hexVal ds ≤ 0x1F ∨ hexVal ds = 0x7F) →
          peek_escape l = .ok (String.singleton '\\' ++
            String.singleton (Char.ofNat (hexVal ds)),
            l.advanceLook (ds.length + wsSkip ks)))) ∧
      (¬ Nat.isValidChar (hexVal ds) →
        ∃ sp, peek_escape l = .err ("Invalid escape sequence.") sp)) ∧
    peek_escape (mkLexer ("41")) = .ok ("A", (mkLexer ("41")).advanceLook 2) ∧
    peek_escape (mkLexer ("1f")) = .ok ("\\1f ", (mkLexer ("1f")).advanceLook 2) := by
  refine ⟨?_, by decide, by decide⟩
  intro l ds ks hne hlen hhex hk hstop
  obtain ⟨d, ds0, rfl⟩ : ∃ d ds0, ds = d :: ds0 := by
    cases ds with
    | nil => exact absurd rfl hne
    | cons a b => exact ⟨a, b, rfl⟩
  obtain ⟨t, hp, hkind, _⟩ := peekKinds_cons l d (ds0 ++ ks) (by rw [hk]; rfl)
  have hd : is_ascii_hexdigit d = true := hhex d (by simp)
  have hdt : is_ascii_hexdigit t.kind = true := by rw [hkind]; exact hd
  have hnl : ¬(t.kind = '\n') := by
    rw [hkind]; intro h; rw [h] at hd; exact absurd hd (by decide)
  obtain ⟨sp, hloop⟩ := hexLoop_spec (d :: ds0) ks 6 0 t.pos l hk hhex hlen hstop
  have hks : (l.advanceLook (d :: ds0).length).peekKinds = ks := by
    rw [peekKinds_advanceLook, hk, List.drop_left]
  have hmain : peek_escape l = finishEscape (hexVal (d :: ds0)) sp
      (l.advanceLook ((d :: ds0).length + wsSkip ks)) := by
    unfold peek_escape
    rw [hp]
    simp only [hnl, if_false, hdt, if_true]
    rw [hloop]
    simp only
    cases ks with
    | nil =>
      rw [peekKinds_nil _ hks]
      simp only [wsSkip, Nat.add_zero]
      rfl
    | cons c r =>
      obtain ⟨t2, hp2, hkind2, _⟩ := peekKinds_cons _ c r hks
      rw [hp2]
      simp only [hkind2, wsSkip]
      by_cases hws : is_rust_whitespace c = true
      · simp only [hws, if_true, advanceLook_advanceLook]
        rfl
      · rw [Bool.not_eq_true] at hws
        simp only [hws, Bool.false_eq_true, if_false, Nat.add_zero]
        rfl
  constructor
  · intro hvalid
    refine ⟨?_, ?_, ?_⟩
    · intro hname
      rw [hmain]
      unfold finishEscape
      rw [if_pos hvalid, if_pos hname]
    · intro hname hrange
      rw [hmain]
      unfold finishEscape
      rw [if_pos hvalid, if_neg (by rw [hname]; exact Bool.false_ne_true), if_pos hrange]
    · intro hname hrange
      rw [hmain]
      unfold finishEscape
      rw [if_pos hvalid, if_neg (by rw [hname]; exact Bool.false_ne_true), if_neg hrange]
  · intro hinvalid
    refine ⟨sp, ?_⟩
    rw [hmain]
    unfold finishEscape
    rw [if_neg hinvalid]

/-- Claim C6 witness: the general part applied to the concrete input `41`
(two hex digits, nothing following): the accumulated codepoint 0x41 is the
name character `A`, emitted literally with the lookahead past both
digits. -/
theorem C6_witness :
    peek_escape (mkLexer ("41")) =
      .ok (String.singleton (Char.ofNat (hexVal ['4', '1'])),
        (mkLexer ("41")).advanceLook (2 + wsSkip [])) := by
  have h := ((C6_peek_escape.1 (mkLexer ("41")) ['4', '1'] []
    (by decide) (by decide) (by decide) (by decide) (by decide)).1
    (by decide)).1 (by decide)
  exact h

/-- Claim C10: when the token stream is already exhausted at entry to
`peek_escape`, the decoder succeeds with the empty string and the lookahead
unmoved. -/
theorem C10_escape_empty : ∀ (l : Lexer), l.peek = none →
    peek_escape l = .ok ("", l) := by
  intro l h
  unfold peek_escape
  rw [h]

/-- Claim C10 witness: `peek_escape` on an empty stream. -/
theorem C10_witness : peek_escape (mkLexer ("")) = .ok ("", mkLexer ("")) :=
  C10_escape_empty (mkLexer ("")) rfl

/-- Claim C2, amended: when the scan takes the custom-property branch (a
`-` under the lookahead followed by a second `-`), the returned span is
just the first token's position — the body's span is not merged in — while
the text is the two dashes followed by the body's text, and the lookahead
ends where the body left it. -/
theorem C2_amended : ∀ (l : Lexer) (u : Bool) (sb : Span) (t1 t2 : Token)
    (body : Spanned String) (l2 : Lexer),
    l.peek = some t1 → t1.kind = '-' →
    (l.advanceLook 1).peek = some t2 → t2.kind = '-' →
    peek_ident_body_no_interpolation u (l.advanceLook 2) t1.pos = .ok (body, l2) →
    peek_ident_no_interpolation l u sb =
      .ok (⟨("--" : String) ++ body.node, t1.pos⟩, l2) := by
  intro l u sb t1 t2 body l2 h1 h2 h3 h4 h5
  unfold peek_ident_no_interpolation
  rw [h1]
  simp only [h2, h3, h4, h5, if_pos]

/-- Claim C2 counterexample: scanning `--foo` (not in unit mode) returns
the text `--foo` but a span covering only the first character, not all
five as the claim states. -/
theorem C2_counterexample :
    peek_ident_no_interpolation (mkLexer ("--foo")) false ⟨0, 0⟩ =
      .ok (⟨"--foo", ⟨0, 1⟩⟩, (mkLexer ("--foo")).advanceLook 5) ∧
    ¬((⟨0, 1⟩ : Span) = ⟨0, 5⟩) := by
  constructor
  · decide
  · decide

/-- Claim C2 witness: the amended claim applied to the concrete input
`--x`: text `--x`, span only the first token's position. -/
theorem C2_witness :
    peek_ident_no_interpolation (mkLexer ("--x")) false ⟨0, 0⟩ =
      .ok (⟨"--x", ⟨0, 1⟩⟩, (mkLexer ("--x")).advanceLook 3) := by
  have h := C2_amended (mkLexer ("--x")) false ⟨0, 0⟩ ⟨'-', ⟨0, 1⟩⟩ ⟨'-', ⟨1, 2⟩⟩
    ⟨"x", ⟨0, 3⟩⟩ ((mkLexer ("--x")).advanceLook 3) rfl rfl rfl rfl (by decide)
  exact h

/-- Claim C3: evaluation of the body loop at the failing inputs. In unit
mode, scanning `e-ma` yields the text `e-aa` — the `-` branch moves the
lookahead past `m` but appends the character after it, which the next
iteration then appends again — and scanning `e-m` panics on an `unwrap` of
`None`, while the boundary part of the claim does hold: in `x-.5` the `-`
before `.` is left unconsumed. -/
theorem C3_code_eval :
    peek_ident_no_interpolation (mkLexer ("e-ma")) true ⟨0, 0⟩ =
      .ok (⟨"e-aa", ⟨0, 4⟩⟩, (mkLexer ("e-ma")).advanceLook 4) ∧
    peek_ident_no_interpolation (mkLexer ("e-m")) true ⟨0, 0⟩ = .panicked ∧
    peek_ident_no_interpolation (mkLexer ("x-.5")) true ⟨0, 0⟩ =
      .ok (⟨"x", ⟨0, 2⟩⟩, (mkLexer ("x-.5")).advanceLook 1) := by
  exact ⟨by decide, by decide, by decide⟩

/-- Claim C7, amended: after an optional single leading `-`, a current
character that is neither a name-start character, nor a backslash, nor a
second `-` (which instead begins a custom-property identifier) fails the
scan with `Expected identifier.` at that character's position. -/
theorem C7_amended :
    (∀ (l : Lexer) (u : Bool) (sb : Span) (t : Token),
      l.peek = some t → ¬(t.kind = '-') → is_name_start t.kind = false →
      ¬(t.kind = '\\') →
      peek_ident_no_interpolation l u sb = .err ("Expected identifier.") t.pos) ∧
    (∀ (l : Lexer) (u : Bool) (sb : Span) (t1 t2 : Token),
      l.peek = some t1 → t1.kind = '-' →
      (l.advanceLook 1).peek = some t2 → ¬(t2.kind = '-') →
      is_name_start t2.kind = false → ¬(t2.kind = '\\') →
      peek_ident_no_interpolation l u sb = .err ("Expected identifier.") t2.pos) := by
  constructor
  · intro l u sb t h1 h2 h3 h4
    unfold peek_ident_no_interpolation identTail
    rw [h1]
    simp only [h2, h3, h4, if_false, if_true, Bool.false_eq_true]
  · intro l u sb t1 t2 h1 h2 h3 h4 h5 h6
    unfold peek_ident_no_interpolation identTail
    rw [h1, h3]
    simp only [h2, h4, h5, h6, if_false, if_true, Bool.false_eq_true,
      eq_self_iff_true]

/-- Claim C7 counterexample: on input `--`, the character after the single
consumed leading `-` is `-`, which is neither a name-start character nor a
backslash, yet the scan succeeds with the custom-property identifier `--`
instead of failing with `Expected identifier.`. -/
theorem C7_counterexample :
    peek_ident_no_interpolation (mkLexer ("--")) false ⟨0, 0⟩ =
      .ok (⟨"--", ⟨0, 1⟩⟩, (mkLexer ("--")).advanceLook 2) ∧
    ¬(peek_ident_no_interpolation (mkLexer ("--")) false ⟨0, 0⟩ =
      .err ("Expected identifier.") ⟨1, 2⟩) := by
  exact ⟨by decide, by decide⟩

/-- Claim C7 witness: the amended claim applied to the scenario input `-1`
in unit mode — after the leading `-`, the digit `1` is neither name-start
nor backslash, so the scan fails at its position. -/
theorem C7_witness :
    peek_ident_no_interpolation (mkLexer ("-1")) true ⟨0, 0⟩ =
      .err ("Expected identifier.") ⟨1, 2⟩ := by
  have h := C7_amended.2 (mkLexer ("-1")) true ⟨0, 0⟩ ⟨'-', ⟨0, 1⟩⟩ ⟨'1', ⟨1, 2⟩⟩
    rfl rfl rfl (by decide) (by decide) (by decide)
  exact h

/-- Claim C1 counterexample: on the dimension `1px`, the `unit` builtin
returns the unit as a double-quoted string value, not one that prints
unquoted (`QuoteKind.None`). -/
theorem C1_counterexample :
    unitBuiltin (.Dimension 1 .Px) = .ok (.Ident ("px") QuoteKind.Double) ∧
    ¬(unitBuiltin (.Dimension 1 .Px) = .ok (.Ident ("px") QuoteKind.None)) := by
  exact ⟨rfl, by decide⟩

/-- Claim C1, amended: for every dimension argument, the `unit` builtin
returns the dimension's unit rendered as a double-quoted string value
(`QuoteKind.Double`); for every non-dimension argument it fails with a
type error naming the formal parameter `$number` and the value's printed
form. -/
theorem C1_amended :
    (∀ (n : Int) (u : Unit),
      unitBuiltin (.Dimension n u) = .ok (.Ident u.toString QuoteKind.Double)) ∧
    (∀ (v : Value), v.isDimension = false →
      unitBuiltin v = .error (("$number: " : String) ++ v.inspect ++ " is not a number.")) := by
  constructor
  · intro n u; rfl
  · intro v h
    cases v with
    | Dimension n u => exact absurd h (by simp [Value.isDimension])
    | Ident s q => rfl
    | True => rfl
    | False => rfl
    | Null => rfl
    | Function f => rfl

/-- Claim C1 witness: the amended claim at the dimension `2em` and at the
non-dimension `null`. -/
theorem C1_witness :
    unitBuiltin (.Dimension 2 .Em) = .ok (.Ident ("em") QuoteKind.Double) ∧
    unitBuiltin Value.Null = .error ("$number: null is not a number.") := by
  exact ⟨C1_amended.1 2 .Em, C1_amended.2 Value.Null rfl⟩

/-- Claim C4: `type-of` is total over the value model — for every value it
returns the value's type-tag name as an unquoted string and never fails. -/
theorem C4_type_of_total : ∀ (v : Value), ∃ s, v.kind = .ok s ∧
    typeOfBuiltin v = .ok (.Ident s QuoteKind.None) := by
  intro v
  cases v with
  | Dimension n u => exact ⟨_, rfl, rfl⟩
  | Ident s q => exact ⟨_, rfl, rfl⟩
  | True => exact ⟨_, rfl, rfl⟩
  | False => exact ⟨_, rfl, rfl⟩
  | Null => exact ⟨_, rfl, rfl⟩
  | Function f => exact ⟨_, rfl, rfl⟩

/-- Truthiness is total: `is_true` always succeeds with a boolean. -/
theorem is_true_ok (v : Value) : ∃ b, v.is_true = .ok b := by
  cases v with
  | Dimension n u => exact ⟨_, rfl⟩
  | Ident s q => exact ⟨_, rfl⟩
  | True => exact ⟨_, rfl⟩
  | False => exact ⟨_, rfl⟩
  | Null => exact ⟨_, rfl⟩
  | Function f => exact ⟨_, rfl⟩

/-- Resolution succeeds exactly when the name is a function in scope or a
key of the global builtin registry. -/
theorem resolveFn_ok_iff (sc : Scope) (g : Registry) (s : String) :
    (∃ v, resolveFn sc g s = .ok v) ↔
    (sc.fn_exists s || g.contains_key s) = true := by
  unfold resolveFn
  cases hg : sc.get_fn s with
  | ok f =>
    have hfe : sc.fn_exists s = true := (get_fn_ok_iff sc s).mp ⟨f, hg⟩
    simp [hfe]
  | error e =>
    have hfe : sc.fn_exists s = false := by
      cases hx : sc.fn_exists s
      · rfl
      · obtain ⟨f, hf⟩ := (get_fn_ok_iff sc s).mpr hx
        rw [hf] at hg
        cases hg
    rw [hfe]
    unfold Registry.contains_key
    cases hgs : g.get s with
    | some b => simp
    | none => simp

/-- Claim C5: for every name and every scope (and registry),
`function-exists` returns true exactly when `get-function` with `$css` and
`$module` left at their defaults succeeds. -/
theorem C5_function_exists_iff : ∀ (sc : Scope) (g : Registry) (s : String)
    (q : QuoteKind),
    functionExistsBuiltin sc g (.Ident s q) = .ok Value.True ↔
    ∃ v, getFunctionBuiltin sc g (.Ident s q) Value.False Value.Null = .ok v := by
  intro sc g s q
  have hL : functionExistsBuiltin sc g (.Ident s q) =
      .ok (Value.bool (sc.fn_exists s || g.contains_key s)) := rfl
  have hR : getFunctionBuiltin sc g (.Ident s q) Value.False Value.Null =
      resolveFn sc g s := rfl
  rw [hL, hR]
  constructor
  · intro h
    have hb : (sc.fn_exists s || g.contains_key s) = true := by
      cases hx : (sc.fn_exists s || g.contains_key s)
      · rw [hx] at h
        exact absurd h (by decide)
      · rfl
    exact (resolveFn_ok_iff sc g s).mpr hb
  · intro h
    have hb := (resolveFn_ok_iff sc g s).mp h
    rw [hb]
    rfl

/-- Claim C8: `get-function` fails with the usage-conflict error when a
truthy `$css` is passed together with a string `$module`; otherwise it
resolves the name first as a user-defined function in scope, falling back
to the global builtin registry, wrapping the result as a `Function` value
tagged `UserDefined` or `Builtin` according to which lookup succeeded, and
fails with `Function not found: <name>` exactly when neither resolves. -/
theorem C8_get_function :
    (∀ (sc : Scope) (g : Registry) (s m : String) (q qm : QuoteKind) (cssV : Value),
      cssV.is_true = .ok true →
      getFunctionBuiltin sc g (.Ident s q) cssV (.Ident m qm) =
        .error ("$css and $module may not both be passed at once.")) ∧
    (∀ (sc : Scope) (g : Registry) (s : String) (q : QuoteKind) (cssV moduleV : Value)
      (f : FuncDecl),
      (moduleV = .Null ∨ (cssV.is_true = .ok false ∧ ∃ m qm, moduleV = .Ident m qm)) →
      sc.get_fn s = .ok f →
      getFunctionBuiltin sc g (.Ident s q) cssV moduleV =
        .ok (.Function (.UserDefined f s))) ∧
    (∀ (sc : Scope) (g : Registry) (s : String) (q : QuoteKind) (cssV moduleV : Value)
      (e : String) (b : Builtin),
      (moduleV = .Null ∨ (cssV.is_true = .ok false ∧ ∃ m qm, moduleV = .Ident m qm)) →
      sc.get_fn s = .error e → g.get s = some b →
      getFunctionBuiltin sc g (.Ident s q) cssV moduleV =
        .ok (.Function (.Builtin b s))) ∧
    (∀ (sc : Scope) (g : Registry) (s : String) (q : QuoteKind) (cssV moduleV : Value)
      (e : String),
      (moduleV = .Null ∨ (cssV.is_true = .ok false ∧ ∃ m qm, moduleV = .Ident m qm)) →
      sc.get_fn s = .error e → g.get s = none →
      getFunctionBuiltin sc g (.Ident s q) cssV moduleV =
        .error (("Function not found: " : String) ++ s)) := by
  have hres : ∀ (sc : Scope) (g : Registry) (s : String) (q : QuoteKind)
      (cssV moduleV : Value),
      (moduleV = .Null ∨ (cssV.is_true = .ok false ∧ ∃ m qm, moduleV = .Ident m qm)) →
      getFunctionBuiltin sc g (.Ident s q) cssV moduleV = resolveFn sc g s := by
    intro sc g s q cssV moduleV hmod
    cases hmod with
    | inl h =>
      subst h
      obtain ⟨b, hb⟩ := is_true_ok cssV
      unfold getFunctionBuiltin
      rw [hb]
    | inr h =>
      obtain ⟨hcss, m, qm, hm⟩ := h
      subst hm
      unfold getFunctionBuiltin
      rw [hcss]
      simp only [if_false, Bool.false_eq_true]
  refine ⟨?_, ?_, ?_, ?_⟩
  · intro sc g s m q qm cssV hcss
    unfold getFunctionBuiltin
    rw [hcss]
    rfl
  · intro sc g s q cssV moduleV f hmod hf
    rw [hres sc g s q cssV moduleV hmod]
    unfold resolveFn
    rw [hf]
  · intro sc g s q cssV moduleV e b hmod he hb
    rw [hres sc g s q cssV moduleV hmod]
    unfold resolveFn
    rw [he, hb]
  · intro sc g s q cssV moduleV e hmod he hnone
    rw [hres sc g s q cssV moduleV hmod]
    unfold resolveFn
    rw [he, hnone]

/-- Claim C8 witness: the conflict, builtin-resolution and not-found cases
at concrete inputs over an empty scope and a one-entry registry. -/
theorem C8_witness :
    getFunctionBuiltin ⟨[]⟩ [("red", ⟨7⟩)] (.Ident ("red") QuoteKind.None)
      Value.True (.Ident ("m") QuoteKind.None) =
      .error ("$css and $module may not both be passed at once.") ∧
    getFunctionBuiltin ⟨[]⟩ [("red", ⟨7⟩)] (.Ident ("red") QuoteKind.None)
      Value.False Value.Null = .ok (.Function (.Builtin ⟨7⟩ "red")) ∧
    getFunctionBuiltin ⟨[]⟩ [("red", ⟨7⟩)] (.Ident ("blue") QuoteKind.None)
      Value.False Value.Null = .error ("Function not found: blue") := by
  refine ⟨?_, ?_, ?_⟩
  · exact C8_get_function.1 ⟨[]⟩ [("red", ⟨7⟩)] "red" "m" QuoteKind.None
      QuoteKind.None Value.True rfl
  · exact C8_get_function.2.2.1 ⟨[]⟩ [("red", ⟨7⟩)] "red" QuoteKind.None
      Value.False Value.Null ("Undefined function.") ⟨7⟩ (Or.inl rfl) rfl (by decide)
  · exact C8_get_function.2.2.2 ⟨[]⟩ [("red", ⟨7⟩)] "blue" QuoteKind.None
      Value.False Value.Null ("Undefined function.") (Or.inl rfl) rfl (by decide)

/-- Claim C9 counterexample: at the non-dimension value `null`, `unitless`
is true while `unit` fails with a type error rather than returning the
empty string, so the claimed equivalence over every value fails. -/
theorem C9_counterexample :
    unitlessBuiltin Value.Null = .ok Value.True ∧
    unitBuiltin Value.Null = .error ("$number: null is not a number.") := by
  exact ⟨rfl, rfl⟩

/-- Claim C9, amended: `unitless` is true on dimensions with `Unit.None`,
false on dimensions with any other unit, and true on every non-dimension
value; and restricted to dimension arguments, `unitless` is true exactly
when `unit` returns the empty string — on non-dimension arguments
`unitless` is true while `unit` is a type error. -/
theorem C9_amended :
    (∀ (n : Int), unitlessBuiltin (.Dimension n .None) = .ok Value.True) ∧
    (∀ (n : Int) (u : Unit), ¬(u = .None) →
      unitlessBuiltin (.Dimension n u) = .ok Value.False) ∧
    (∀ (v : Value), v.isDimension = false → unitlessBuiltin v = .ok Value.True) ∧
    (∀ (n : Int) (u : Unit),
      unitlessBuiltin (.Dimension n u) = .ok Value.True ↔
      unitBuiltin (.Dimension n u) = .ok (.Ident ("") QuoteKind.Double)) ∧
    (∀ (v : Value), v.isDimension = false → ∃ e, unitBuiltin v = .error e) := by
  refine ⟨?_, ?_, ?_, ?_, ?_⟩
  · intro n; rfl
  · intro n u h
    cases u with
    | None => exact absurd rfl h
    | Px => rfl
    | Em => rfl
    | Rem => rfl
    | Percent => rfl
    | Deg => rfl
    | S => rfl
  · intro v h
    cases v with
    | Dimension n u => exact absurd h (by simp [Value.isDimension])
    | Ident s q => rfl
    | True => rfl
    | False => rfl
    | Null => rfl
    | Function f => rfl
  · intro n u
    cases u with
    | None => simp [unitlessBuiltin, unitBuiltin, Unit.toString]
    | Px => simp [unitlessBuiltin, unitBuiltin, Unit.toString]
    | Em => simp [unitlessBuiltin, unitBuiltin, Unit.toString]
    | Rem => simp [unitlessBuiltin, unitBuiltin, Unit.toString]
    | Percent => simp [unitlessBuiltin, unitBuiltin, Unit.toString]
    | Deg => simp [unitlessBuiltin, unitBuiltin, Unit.toString]
    | S => simp [unitlessBuiltin, unitBuiltin, Unit.toString]
  · intro v h
    cases v with
    | Dimension n u => exact absurd h (by simp [Value.isDimension])
    | Ident s q => exact ⟨_, rfl⟩
    | True => exact ⟨_, rfl⟩
    | False => exact ⟨_, rfl⟩
    | Null => exact ⟨_, rfl⟩
    | Function f => exact ⟨_, rfl⟩

/-- Claim C9 witness: the amended claim at the dimensions `3` (unitless)
and `3px`, and at the non-dimension `true`. -/
theorem C9_witness :
    unitlessBuiltin (.Dimension 3 .None) = .ok Value.True ∧
    unitlessBuiltin (.Dimension 3 .Px) = .ok Value.False ∧
    unitlessBuiltin Value.True = .ok Value.True := by
  exact ⟨C9_amended.1 3, C9_amended.2.1 3 .Px (by decide), C9_amended.2.2.1 Value.True rfl⟩

end Grass
